import Mathlib

/-!
# Verification of the wine-rating tracker (`wine_ranking.py`)

A shallow embedding of the single-file wine-rating program, together with
proofs of its specified properties.

Modelling conventions:

* The embedding covers the ASCII fragment of the text handling of Python:
  the regex class `\d` is modelled as the ASCII digits `0`-`9`,
  `str.strip()` as removal of ASCII whitespace, and string comparison as
  code-point lexicographic order, all of which agree with Python on ASCII.
* Ratings are represented in tenths (a `Nat` in `0..100`).  Every value
  `parse_rating` can return is an exact multiple of `0.1` in `[0, 10]`;
  these map injectively and order-preservingly onto the Python floats the
  program stores, so equality and ordering of ratings are preserved.
* The `sorted` builtin of Python is a stable sort; it is modelled by
  `List.insertionSort`, which is stable for the same total, transitive
  comparator and therefore extensionally equal to it.
* Console I/O is modelled by passing the relevant input strings as
  arguments and returning the produced data; `datetime.fromisoformat` +
  `strftime` are abstracted by an arbitrary partial formatting function.
-/

/-- The ASCII whitespace characters removed by the `str.strip()` method of Python. -/
def pyWhitespace (c : Char) : Bool :=
  c = ' ' || c = '\t' || c = '\n' || c = '\r' || c = Char.ofNat 11 || c = Char.ofNat 12

/-- Model of Python `str.strip()` (ASCII fragment): drop whitespace from both ends. -/
def pyStrip (s : String) : String :=
  ⟨((s.data.dropWhile pyWhitespace).reverse.dropWhile pyWhitespace).reverse⟩

/-- The regex `^(10(\.0)?|\d(\.\d)?)$` of `parse_rating` (line 35), unfolded
by length of the candidate string, returning the tenths value of the matched
literal (`float(text)` scaled by 10).  Per length the regex admits:
one character: a digit; two: `10`; three: digit, dot, digit; four: `10.0`. -/
def regexTenths : List Char → Option Nat
  | [c] => if c.isDigit then some (10 * (c.toNat - 48)) else none
  | [a, b] => if a = '1' ∧ b = '0' then some 100 else none
  | [c, p, d] =>
      if p = '.' ∧ c.isDigit ∧ d.isDigit then
        some (10 * (c.toNat - 48) + (d.toNat - 48))
      else none
  | [a, b, p, z] => if a = '1' ∧ b = '0' ∧ p = '.' ∧ z = '0' then some 100 else none
  | _ => none

/-- Model of `parse_rating` (lines 26–43): strip, match the rating regex, convert, and
keep the value only if `0 <= value <= 10` (in tenths: `v ≤ 100`; the lower
bound is automatic for `Nat`).  `round(value, 1)` is the identity here since
a regex match already has at most one fractional digit.  The empty-string
early return is subsumed by the regex rejecting the empty string. -/
def parse_rating (text : String) : Option Nat :=
  match regexTenths (pyStrip text).data with
  | none => none
  | some v => if v ≤ 100 then some v else none

/-- Python `str(r)` for a stored rating `r` (given in tenths): every float
the program can store is an exact one-decimal value in `[0, 10]`, and each
prints with exactly one fractional digit (its shortest round-tripping
representation), e.g. `8.5`, `7.0`, `10.0`. -/
def ratingRepr (v : Nat) : String :=
  toString (v / 10) ++ "." ++ toString (v % 10)

/-- One stored rating record.  Python stores dicts; `date := none` models a
dict that lacks the `"date"` key (the program reads it with
`r.get("date", "")` throughout). -/
structure RatingRecord where
  wine : String
  rating : Nat
  date : Option String
deriving Repr, DecidableEq, Inhabited

/-- Reading `r.get("date", "")`. -/
def dateStr (r : RatingRecord) : String := r.date.getD ""

/-- Model of `_rating_sort_key` (lines 69–71): `(-r["rating"], r.get("date", ""))`. -/
def _rating_sort_key (r : RatingRecord) : Int × String :=
  (-(r.rating : Int), dateStr r)

/-- Lexicographic tuple `<=` of Python on the sort-key tuples (first component by
integer order, second by code-point string order). -/
def keyLE (p q : Int × String) : Prop :=
  p.1 < q.1 ∨ (p.1 = q.1 ∧ p.2 ≤ q.2)

instance : DecidableRel keyLE := fun p q =>
  inferInstanceAs (Decidable (p.1 < q.1 ∨ (p.1 = q.1 ∧ p.2 ≤ q.2)))

/-- The record comparator used by `sorted(..., key=_rating_sort_key)`. -/
def recLE (a b : RatingRecord) : Prop :=
  keyLE (_rating_sort_key a) (_rating_sort_key b)

instance : DecidableRel recLE := fun a b =>
  inferInstanceAs (Decidable (keyLE (_rating_sort_key a) (_rating_sort_key b)))

theorem keyLE_total (p q : Int × String) : keyLE p q ∨ keyLE q p := by
  rcases lt_trichotomy p.1 q.1 with h | h | h
  · exact Or.inl (Or.inl h)
  · rcases le_total p.2 q.2 with h2 | h2
    · exact Or.inl (Or.inr ⟨h, h2⟩)
    · exact Or.inr (Or.inr ⟨h.symm, h2⟩)
  · exact Or.inr (Or.inl h)

theorem keyLE_trans {p q t : Int × String} (h1 : keyLE p q) (h2 : keyLE q t) :
    keyLE p t := by
  rcases h1 with h1 | ⟨h1, h1'⟩ <;> rcases h2 with h2 | ⟨h2, h2'⟩
  · exact Or.inl (h1.trans h2)
  · exact Or.inl (h2 ▸ h1)
  · exact Or.inl (h1 ▸ h2)
  · exact Or.inr ⟨h1.trans h2, h1'.trans h2'⟩

instance : IsTotal RatingRecord recLE := ⟨fun _ _ => keyLE_total _ _⟩

instance : IsTrans RatingRecord recLE := ⟨fun _ _ _ => keyLE_trans⟩

/-- Model of `sorted(ratings, key=_rating_sort_key)` (line 80).  The `sorted`
builtin of Python is stable; `List.insertionSort` is stable for the same total transitive
comparator, hence extensionally equal to it. -/
def sorted_ratings (ratings : List RatingRecord) : List RatingRecord :=
  ratings.insertionSort recLE

/-- The comparator of line 102, `lambda i: _rating_sort_key(ratings[i])`:
storage indices compared by the key of the record they point at.  `ratings[i]`
is modelled totally by `getD` with a default; the indices sorted all lie
below `len(ratings)`, where both agree. -/
def idxLE (ratings : List RatingRecord) (i j : Nat) : Prop :=
  recLE (ratings.getD i default) (ratings.getD j default)

instance (ratings : List RatingRecord) : DecidableRel (idxLE ratings) := fun i j =>
  inferInstanceAs (Decidable (recLE (ratings.getD i default) (ratings.getD j default)))

/-- Model of `sorted_indices` (lines 101–103): `sorted(range(len(ratings)), key=...)`. -/
def sorted_indices (ratings : List RatingRecord) : List Nat :=
  (List.range ratings.length).insertionSort (idxLE ratings)

/-- The sequence of records the delete operation displays: rank `k` shows
`ratings[sorted_indices[k-1]]` (lines 105–114). -/
def delete_display (ratings : List RatingRecord) : List RatingRecord :=
  (sorted_indices ratings).map (fun i => ratings.getD i default)

/-- Date rendering for one row (lines 83–89 and 107–113): the stored string,
if non-empty, is pretty-printed when it parses as a timestamp and shown raw
otherwise.  `fmt` abstracts `datetime.fromisoformat` + `strftime`; `none`
models a `ValueError`/`TypeError` on parsing. -/
def renderDate (fmt : String → Option String) (s : String) : String :=
  if s = "" then s
  else
    match fmt s with
    | some pretty => pretty
    | none => s

/-- One display row (line 90 / line 114): rank, wine, rating (tenths),
rendered date. -/
def renderLine (fmt : String → Option String) (i : Nat) (r : RatingRecord) :
    Nat × String × Nat × String :=
  (i, r.wine, r.rating, renderDate fmt (dateStr r))

/-- Model of `view_ratings` (lines 74–91) as the list of displayed rows, best first,
with 1-based ranks.  An empty store prints a message and shows no rows. -/
def view_ratings (fmt : String → Option String) (ratings : List RatingRecord) :
    List (Nat × String × Nat × String) :=
  if ratings = [] then []
  else ((sorted_ratings ratings).enumFrom 1).map (fun p => renderLine fmt p.1 p.2)

/-- The digit-string value used by Python `int()`: `none` unless the list is
a non-empty run of ASCII digits. -/
def digitsVal (l : List Char) : Option Nat :=
  match l with
  | [] => none
  | l =>
      if l.all Char.isDigit then
        some (l.foldl (fun n c => 10 * n + (c.toNat - 48)) 0)
      else none

/-- Python `int(raw)` on the ASCII fragment: an optional sign followed by
digits (the caller has already stripped whitespace; PEP 515 underscore
grouping is not modelled).  `none` models a `ValueError`. -/
def pyInt (s : String) : Option Int :=
  match s.data with
  | '+' :: rest => (digitsVal rest).map Int.ofNat
  | '-' :: rest => (digitsVal rest).map (fun n => -(n : Int))
  | l => (digitsVal l).map Int.ofNat

/-- The reported outcome of one run of `delete_rating`. -/
inductive DeleteOutcome where
  | emptyStore
  | cancelled
  | deleted (removed : RatingRecord)
  | rangeError
  | formatError
deriving Repr, DecidableEq

/-- Model of `delete_rating` (lines 94–130) as a function of the loaded store and the
console input, returning the store that is left behind (saved only in the
`deleted` case) and the reported outcome.  `ratings.pop(real_i)` is modelled
by `eraseIdx` plus reading the element at `real_i`. -/
def delete_rating (ratings : List RatingRecord) (rawInput : String) :
    List RatingRecord × DeleteOutcome :=
  if ratings = [] then (ratings, .emptyStore)
  else
    let raw := pyStrip rawInput
    if raw = "" then (ratings, .cancelled)
    else
      match pyInt raw with
      | none => (ratings, .formatError)
      | some display_num =>
          if 1 ≤ display_num ∧ display_num ≤ (ratings.length : Int) then
            let real_i := (sorted_indices ratings).getD (display_num - 1).toNat 0
            (ratings.eraseIdx real_i, .deleted (ratings.getD real_i default))
          else (ratings, .rangeError)

/-- The reported outcome of one run of `add_rating`. -/
inductive AddOutcome where
  | emptyName
  | added (entry : RatingRecord)
deriving Repr, DecidableEq

/-- The rating retry loop (lines 52–57): the first console input accepted by
`parse_rating`; `none` models the loop still blocked waiting for input. -/
def firstValidRating : List String → Option Nat
  | [] => none
  | s :: rest =>
      match parse_rating s with
      | some r => some r
      | none => firstValidRating rest

/-- Model of `add_rating` (lines 46–66) as a function of the console inputs (wine
name, then the stream of rating attempts), the creation timestamp and the
loaded store, returning the store left behind and the outcome (`none` while
the rating loop is still blocked). -/
def add_rating (nameInput : String) (ratingInputs : List String) (now : String)
    (store : List RatingRecord) : List RatingRecord × Option AddOutcome :=
  let name := pyStrip nameInput
  if name = "" then (store, some .emptyName)
  else
    match firstValidRating ratingInputs with
    | none => (store, none)
    | some rating =>
        let entry : RatingRecord := { wine := name, rating := rating, date := some now }
        (store ++ [entry], some (.added entry))

/-- Where one menu choice dispatches (lines 141–152). -/
inductive MenuAction where
  | add
  | view
  | delete
  | quit
  | complain
deriving Repr, DecidableEq

/-- The dispatch of `main` on one stripped menu choice (lines 141–152). -/
def menu_dispatch (choice : String) : MenuAction :=
  let c := pyStrip choice
  if c = "1" then .add
  else if c = "2" then .view
  else if c = "3" then .delete
  else if c = "4" then .quit
  else .complain

/-- The `while True` loop of `main` (lines 136–152) over a stream of menu
choices: `true` iff the loop reaches `break` while consuming the stream
(sub-operation I/O is abstracted; every non-quit dispatch returns to the
menu and consumes the next choice). -/
def main_loop : List String → Bool
  | [] => false
  | c :: rest =>
      match menu_dispatch c with
      | .quit => true
      | _ => main_loop rest

-- Sanity checks on concrete inputs (parse, strip, sort).
example : parse_rating "7.5" = some 75 := by decide
example : parse_rating " 10 " = some 100 := by decide
example : parse_rating "10.0" = some 100 := by decide
example : parse_rating "0" = some 0 := by decide
example : parse_rating "10.5" = none := by decide
example : parse_rating "-1" = none := by decide
example : parse_rating "7.55" = none := by decide
example : parse_rating "" = none := by decide
example : pyStrip "  a b\t" = "a b" := by decide
example :
    sorted_ratings [⟨"a", 50, some "2024"⟩, ⟨"b", 70, some "2023"⟩] =
      [⟨"b", 70, some "2023"⟩, ⟨"a", 50, some "2024"⟩] := by decide
example :
    sorted_indices [⟨"a", 50, some "2024"⟩, ⟨"b", 70, some "2023"⟩] = [1, 0] := by
  decide
example : pyInt "99" = some 99 := by decide
example : pyInt "-1" = some (-1) := by decide
example : pyInt "abc" = none := by decide
example : pyInt "" = none := by decide
example :
    delete_rating [⟨"a", 50, none⟩, ⟨"b", 70, none⟩] "1" =
      ([⟨"a", 50, none⟩], .deleted ⟨"b", 70, none⟩) := by decide
example :
    delete_rating [⟨"a", 50, none⟩, ⟨"b", 70, none⟩] "3" =
      ([⟨"a", 50, none⟩, ⟨"b", 70, none⟩], .rangeError) := by decide
example :
    add_rating " Merlot " ["11", "8.5"] "t0" [] =
      ([⟨"Merlot", 85, some "t0"⟩], some (.added ⟨"Merlot", 85, some "t0"⟩)) := by
  decide
example : main_loop ["7", "2", "4"] = true := by decide
example : main_loop ["1", "2", "3"] = false := by decide
example :
    view_ratings (fun _ => none) [⟨"a", 50, some "d"⟩] = [(1, "a", 50, "d")] := by
  decide

/-! ## Helper lemmas -/

theorem char_digit_bounds {c : Char} (h : c.isDigit = true) :
    48 ≤ c.toNat ∧ c.toNat ≤ 57 := by
  simp [Char.isDigit] at h
  exact ⟨by exact_mod_cast h.1, by exact_mod_cast h.2⟩

/-- Exactly which character lists the rating regex accepts, and the value
each one yields. -/
theorem regexTenths_eq_some {l : List Char} {v : Nat} :
    regexTenths l = some v ↔
      (l = ['1', '0'] ∧ v = 100) ∨
      (l = ['1', '0', '.', '0'] ∧ v = 100) ∨
      (∃ c, c.isDigit = true ∧ l = [c] ∧ v = 10 * (c.toNat - 48)) ∨
      (∃ c d, c.isDigit = true ∧ d.isDigit = true ∧ l = [c, '.', d] ∧
        v = 10 * (c.toNat - 48) + (d.toNat - 48)) := by
  match l with
  | [] => simp [regexTenths]
  | [c] =>
    by_cases hc : c.isDigit = true
    · simp only [regexTenths, if_pos hc]
      constructor
      · intro h
        injection h with h
        exact Or.inr (Or.inr (Or.inl ⟨c, hc, rfl, h.symm⟩))
      · rintro (⟨h, -⟩ | ⟨h, -⟩ | ⟨c', -, hl, rfl⟩ | ⟨c', d', -, -, hl, -⟩)
        · simp at h
        · simp at h
        · simp only [List.cons.injEq, and_true] at hl
          subst hl
          rfl
        · simp at hl
    · simp only [regexTenths, if_neg hc]
      constructor
      · rintro ⟨⟩
      · rintro (⟨h, -⟩ | ⟨h, -⟩ | ⟨c', hc', hl, -⟩ | ⟨c', d', -, -, hl, -⟩)
        · simp at h
        · simp at h
        · simp only [List.cons.injEq, and_true] at hl
          subst hl
          exact absurd hc' hc
        · simp at hl
  | [a, b] =>
    by_cases hab : a = '1' ∧ b = '0'
    · obtain ⟨rfl, rfl⟩ := hab
      simp [regexTenths, @eq_comm ℕ v]
    · simp only [regexTenths, if_neg hab]
      constructor
      · rintro ⟨⟩
      · rintro (⟨h, -⟩ | ⟨h, -⟩ | ⟨c', -, hl, -⟩ | ⟨c', d', -, -, hl, -⟩)
        · simp only [List.cons.injEq, and_true] at h
          exact absurd h hab
        · simp at h
        · simp at hl
        · simp at hl
  | [c, p, d] =>
    by_cases hm : p = '.' ∧ c.isDigit = true ∧ d.isDigit = true
    · obtain ⟨rfl, hc, hd⟩ := hm
      have he : regexTenths [c, '.', d] = some (10 * (c.toNat - 48) + (d.toNat - 48)) := by
        simp [regexTenths, hc, hd]
      rw [he]
      constructor
      · intro h
        injection h with h
        exact Or.inr (Or.inr (Or.inr ⟨c, d, hc, hd, rfl, h.symm⟩))
      · rintro (⟨h, -⟩ | ⟨h, -⟩ | ⟨c', -, hl, -⟩ | ⟨c', d', -, -, hl, rfl⟩)
        · simp at h
        · simp at h
        · simp at hl
        · simp only [List.cons.injEq, and_true] at hl
          obtain ⟨rfl, -, rfl⟩ := hl
          rfl
    · simp only [regexTenths, if_neg hm]
      constructor
      · rintro ⟨⟩
      · rintro (⟨h, -⟩ | ⟨h, -⟩ | ⟨c', -, hl, -⟩ | ⟨c', d', hc', hd', hl, -⟩)
        · simp at h
        · simp at h
        · simp at hl
        · simp only [List.cons.injEq, and_true] at hl
          obtain ⟨h1, h2, h3⟩ := hl
          subst h1; subst h3
          exact absurd ⟨h2, hc', hd'⟩ hm
  | [a, b, p, z] =>
    by_cases hm : a = '1' ∧ b = '0' ∧ p = '.' ∧ z = '0'
    · obtain ⟨rfl, rfl, rfl, rfl⟩ := hm
      simp [regexTenths, @eq_comm ℕ v]
    · simp only [regexTenths, if_neg hm]
      constructor
      · rintro ⟨⟩
      · rintro (⟨h, -⟩ | ⟨h, -⟩ | ⟨c', -, hl, -⟩ | ⟨c', d', -, -, hl, -⟩)
        · simp at h
        · simp only [List.cons.injEq, and_true] at h
          exact absurd h hm
        · simp at hl
        · simp at hl
  | a :: b :: p :: z :: e :: rest =>
    simp [regexTenths]

theorem regexTenths_le {l : List Char} {v : Nat} (h : regexTenths l = some v) :
    v ≤ 100 := by
  rcases regexTenths_eq_some.mp h with ⟨-, rfl⟩ | ⟨-, rfl⟩ |
    ⟨c, hc, -, rfl⟩ | ⟨c, d, hc, hd, -, rfl⟩
  · exact le_refl _
  · exact le_refl _
  · have := char_digit_bounds hc
    omega
  · have h1 := char_digit_bounds hc
    have h2 := char_digit_bounds hd
    omega

/-- The range check of `parse_rating` is redundant: every regex match is
already in range, so `parse_rating` is the regex match on the stripped
input. -/
theorem parse_rating_eq_regex (s : String) :
    parse_rating s = regexTenths (pyStrip s).data := by
  unfold parse_rating
  cases h : regexTenths (pyStrip s).data with
  | none => rfl
  | some w => simp [regexTenths_le h]

/-! ## Claim theorems -/

/-- C1: `parse_rating` accepts exactly the strings whose stripped form
is `"10"`, `"10.0"`, a single digit (the integers `"0".."9"`), or
digit-dot-digit (`X.Y` with `X` in `0..9` and `Y` in `0..9`), and returns
the corresponding value in tenths; every other string, including `"10.5"`,
`"-1"`, `"abc"`, `""` and `"7.55"`, is rejected with `none`. -/
theorem parse_rating_accepts_exactly :
    (∀ (s : String) (v : Nat),
      parse_rating s = some v ↔
        ((pyStrip s).data = ['1', '0'] ∧ v = 100) ∨
        ((pyStrip s).data = ['1', '0', '.', '0'] ∧ v = 100) ∨
        (∃ c, c.isDigit = true ∧ (pyStrip s).data = [c] ∧
          v = 10 * (c.toNat - 48)) ∨
        (∃ c d, c.isDigit = true ∧ d.isDigit = true ∧
          (pyStrip s).data = [c, '.', d] ∧
          v = 10 * (c.toNat - 48) + (d.toNat - 48))) ∧
    parse_rating "10.5" = none ∧ parse_rating "-1" = none ∧
    parse_rating "abc" = none ∧ parse_rating "" = none ∧
    parse_rating "7.55" = none := by
  refine ⟨fun s v => ?_, by decide, by decide, by decide, by decide, by decide⟩
  rw [parse_rating_eq_regex]
  exact regexTenths_eq_some

/-- C8: Re-parsing the stringified form of any rating `parse_rating`
returns yields the same rating. -/
theorem parse_rating_reparse (s : String) (v : Nat)
    (h : parse_rating s = some v) : parse_rating (ratingRepr v) = some v := by
  have hv : v ≤ 100 := by
    rw [parse_rating_eq_regex] at h
    exact regexTenths_le h
  have hall : ∀ w : Nat, w < 101 → parse_rating (ratingRepr w) = some w := by decide
  exact hall v (by omega)

/-- Witness for C8 at the concrete accepted input `"8.5"`. -/
theorem parse_rating_reparse_witness :
    parse_rating "8.5" = some 85 ∧ parse_rating (ratingRepr 85) = some 85 :=
  ⟨by decide, parse_rating_reparse "8.5" 85 (by decide)⟩

/-- Two storage positions in increasing order form a sublist of `range n`. -/
theorem pair_sublist_range {i j n : Nat} (hij : i < j) (hj : j < n) :
    List.Sublist [i, j] (List.range n) := by
  induction n with
  | zero => omega
  | succ n ih =>
    rw [List.range_succ]
    rcases Nat.lt_or_ge j n with h | h
    · exact (ih h).trans (List.sublist_append_left _ _)
    · have hj' : j = n := by omega
      subst hj'
      have hi : List.Sublist [i] (List.range j) :=
        List.singleton_sublist.mpr (List.mem_range.mpr hij)
      simpa using hi.append (List.Sublist.refl [j])

/-- C3: The display ordering (used by both view and delete) is
non-increasing in rating; among equal ratings, earlier dates come first;
and storage indices whose sort keys coincide entirely appear in the display
order in their original storage order (stability). -/
theorem display_ordering (ratings : List RatingRecord) :
    (sorted_ratings ratings).Pairwise
      (fun a b => b.rating ≤ a.rating ∧
        (a.rating = b.rating → dateStr a ≤ dateStr b)) ∧
    (∀ i j, i < j → j < ratings.length →
      _rating_sort_key (ratings.getD i default) =
        _rating_sort_key (ratings.getD j default) →
      List.Sublist [i, j] (sorted_indices ratings)) := by
  constructor
  · have hs := List.sorted_insertionSort recLE ratings
    refine List.Pairwise.imp ?_ hs
    intro a b hab
    simp only [recLE, keyLE, _rating_sort_key] at hab
    rcases hab with h | ⟨h, h2⟩
    · have hlt : b.rating < a.rating := by
        have h' : (b.rating : Int) < (a.rating : Int) := by omega
        exact_mod_cast h'
      exact ⟨hlt.le, fun he => absurd (he ▸ hlt) (lt_irrefl _)⟩
    · have heq : a.rating = b.rating := by omega
      exact ⟨heq.ge, fun _ => h2⟩
  · intro i j hij hj hkey
    have h1 : idxLE ratings i j := by
      unfold idxLE recLE
      rw [hkey]
      exact Or.inr ⟨rfl, le_refl _⟩
    exact List.pair_sublist_insertionSort h1 (pair_sublist_range hij hj)

/-- Witness for the inner hypotheses of **C3** on a two-record store with
identical sort keys. -/
theorem display_ordering_witness :
    List.Sublist [0, 1] (sorted_indices [⟨"a", 70, some "d"⟩, ⟨"b", 70, some "d"⟩]) :=
  (display_ordering [⟨"a", 70, some "d"⟩, ⟨"b", 70, some "d"⟩]).2 0 1
    (by decide) (by decide) (by decide)

/-- Reading every position of a list in order reproduces the list. -/
theorem range_map_getD (l : List RatingRecord) :
    (List.range l.length).map (fun i => l.getD i default) = l := by
  apply List.ext_getElem
  · simp
  · intro i h1 h2
    simp only [List.getElem_map, List.getElem_range]
    rw [List.getD_eq_getElem _ _ h2]

/-- The display computed by the delete operation (sorting storage indices, then reading
each one) equals the display computed by the view operation (sorting the records). -/
theorem delete_display_eq (ratings : List RatingRecord) :
    delete_display ratings = sorted_ratings ratings := by
  unfold delete_display sorted_indices sorted_ratings
  rw [List.map_insertionSort (idxLE ratings) recLE
      (fun i => ratings.getD i default) (List.range ratings.length)
      (fun _ _ _ _ => Iff.rfl)]
  rw [range_map_getD]

/-- C4: Rank for rank, the records the delete operation displays are
exactly the records the view operation displays. -/
theorem delete_display_matches_view :
    ∀ ratings, delete_display ratings = sorted_ratings ratings :=
  delete_display_eq

/-- C2: For a non-empty store and a displayed rank `k` within range, the
delete operation removes exactly the record at storage position
`sorted_indices[k-1]` — the record displayed at rank `k` — and every other
record remains, in its original storage order (the result is the
concatenation of the untouched prefix and suffix around that position). -/
theorem delete_removes_displayed_rank (ratings : List RatingRecord)
    (raw : String) (k : Nat) (hk : pyInt (pyStrip raw) = some (k : Int))
    (h1 : 1 ≤ k) (h2 : k ≤ ratings.length) :
    ∃ i, i < ratings.length ∧
      (sorted_indices ratings).getD (k - 1) 0 = i ∧
      delete_rating ratings raw =
        (ratings.take i ++ ratings.drop (i + 1),
          .deleted (ratings.getD i default)) ∧
      ratings.getD i default = (sorted_ratings ratings).getD (k - 1) default := by
  have hne : ratings ≠ [] := by
    intro h
    subst h
    simp at h2
    omega
  have hraw : pyStrip raw ≠ "" := by
    intro h
    rw [h] at hk
    have : pyInt "" = none := by decide
    rw [this] at hk
    cases hk
  have hlen : (sorted_indices ratings).length = ratings.length := by
    simp [sorted_indices, List.length_insertionSort]
  have hklt : k - 1 < ratings.length := by omega
  refine ⟨(sorted_indices ratings).getD (k - 1) 0, ?_, rfl, ?_, ?_⟩
  · have hmem : (sorted_indices ratings).getD (k - 1) 0 ∈ sorted_indices ratings := by
      rw [List.getD_eq_getElem _ _ (by omega)]
      exact List.getElem_mem _
    have hmem' : (sorted_indices ratings).getD (k - 1) 0 ∈ List.range ratings.length :=
      (List.perm_insertionSort (idxLE ratings) (List.range ratings.length)).subset hmem
    exact List.mem_range.mp hmem'
  · simp only [delete_rating, if_neg hne, if_neg hraw, hk]
    have hcond : (1 : Int) ≤ (k : Int) ∧ (k : Int) ≤ (ratings.length : Int) :=
      ⟨by exact_mod_cast h1, by exact_mod_cast h2⟩
    rw [if_pos hcond]
    have htn : ((k : Int) - 1).toNat = k - 1 := by omega
    rw [htn, List.eraseIdx_eq_take_drop_succ]
  · have hmap := delete_display_eq ratings
    unfold delete_display at hmap
    rw [← hmap]
    have hk1 : k - 1 < (sorted_indices ratings).length := by omega
    have hmaplen : k - 1 <
        (List.map (fun i => ratings.getD i default) (sorted_indices ratings)).length := by
      rw [List.length_map]
      omega
    conv_rhs => rw [List.getD_eq_getElem _ _ hmaplen]
    rw [List.getElem_map]
    rw [List.getD_eq_getElem _ _ hk1]

/-- Witness for C2: deleting displayed rank 1 from a concrete two-record
store removes the higher-rated record at storage position 1. -/
theorem delete_removes_displayed_rank_witness :
    ∃ i, i < 2 ∧
      (sorted_indices [⟨"a", 50, some "t1"⟩, ⟨"b", 70, some "t2"⟩]).getD 0 0 = i ∧
      delete_rating [⟨"a", 50, some "t1"⟩, ⟨"b", 70, some "t2"⟩] "1" =
        (([⟨"a", 50, some "t1"⟩, ⟨"b", 70, some "t2"⟩] : List RatingRecord).take i ++
          ([⟨"a", 50, some "t1"⟩, ⟨"b", 70, some "t2"⟩] : List RatingRecord).drop (i + 1),
          .deleted (([⟨"a", 50, some "t1"⟩, ⟨"b", 70, some "t2"⟩] : List RatingRecord).getD i default)) ∧
      ([⟨"a", 50, some "t1"⟩, ⟨"b", 70, some "t2"⟩] : List RatingRecord).getD i default =
        (sorted_ratings [⟨"a", 50, some "t1"⟩, ⟨"b", 70, some "t2"⟩]).getD 0 default :=
  delete_removes_displayed_rank [⟨"a", 50, some "t1"⟩, ⟨"b", 70, some "t2"⟩] "1" 1
    (by decide) (by decide) (by decide)

/-- C5: On a non-empty store, every failure mode of the delete prompt
leaves the store exactly as it was: empty input cancels, non-numeric input
reports a format error, and an out-of-range number reports a range error;
none of them removes or reorders a record (nothing is saved). -/
theorem delete_invalid_no_mutation (ratings : List RatingRecord) (raw : String)
    (hne : ratings ≠ []) :
    (pyStrip raw = "" → delete_rating ratings raw = (ratings, .cancelled)) ∧
    (pyStrip raw ≠ "" → pyInt (pyStrip raw) = none →
      delete_rating ratings raw = (ratings, .formatError)) ∧
    (∀ k : Int, pyInt (pyStrip raw) = some k →
      (k < 1 ∨ (ratings.length : Int) < k) →
      delete_rating ratings raw = (ratings, .rangeError)) := by
  refine ⟨fun h => ?_, fun h hn => ?_, fun k hk hrange => ?_⟩
  · simp only [delete_rating, if_neg hne, if_pos h]
  · simp only [delete_rating, if_neg hne, if_neg h, hn]
  · have h : pyStrip raw ≠ "" := by
      intro h0
      rw [h0] at hk
      have he : pyInt "" = none := by decide
      rw [he] at hk
      cases hk
    simp only [delete_rating, if_neg hne, if_neg h, hk]
    rw [if_neg (by omega)]

/-- Witness for C5: rank 99 on a concrete 3-record store is rejected
with no mutation. -/
theorem delete_invalid_no_mutation_witness :
    delete_rating [⟨"a", 50, none⟩, ⟨"b", 70, none⟩, ⟨"c", 60, none⟩] "99" =
      ([⟨"a", 50, none⟩, ⟨"b", 70, none⟩, ⟨"c", 60, none⟩], .rangeError) :=
  (delete_invalid_no_mutation [⟨"a", 50, none⟩, ⟨"b", 70, none⟩, ⟨"c", 60, none⟩]
    "99" (by decide)).2.2 99 (by decide) (by decide)

/-- C6: A wine name that strips to empty aborts the add operation with
the `emptyName` message: the store is returned unchanged, and the result is
independent of the rating-input stream (the rating prompt is never
reached) — there is no re-prompt for the name. -/
theorem add_empty_name_aborts (nameInput : String) (ratingInputs : List String)
    (now : String) (store : List RatingRecord) (h : pyStrip nameInput = "") :
    add_rating nameInput ratingInputs now store = (store, some .emptyName) := by
  simp [add_rating, h]

/-- Witness for C6 at a whitespace-only name. -/
theorem add_empty_name_aborts_witness :
    add_rating "   " ["8.5"] "t0" [⟨"a", 50, none⟩] =
      ([⟨"a", 50, none⟩], some .emptyName) :=
  add_empty_name_aborts "   " ["8.5"] "t0" [⟨"a", 50, none⟩] (by decide)

/-- Any rating the retry loop accepts came from `parse_rating`, hence lies
in range. -/
theorem firstValidRating_le {inputs : List String} {r : Nat}
    (h : firstValidRating inputs = some r) : r ≤ 100 := by
  induction inputs with
  | nil => cases h
  | cons s rest ih =>
    rw [firstValidRating] at h
    cases hp : parse_rating s with
    | none =>
      rw [hp] at h
      exact ih h
    | some w =>
      rw [hp] at h
      cases h
      rw [parse_rating_eq_regex] at hp
      exact regexTenths_le hp

/-- C7: Every record the add operation creates satisfies the store
invariant — its rating is at most 100 tenths, i.e. `0 ≤ rating ≤ 10` with
one decimal digit of precision (the lower bound and the precision are
inherent in the tenths representation) — and it is appended at the end:
the new store is exactly the old store followed by the new entry, so all
pre-existing records keep their positions and contents. -/
theorem add_appends_valid_record (nameInput : String) (ratingInputs : List String)
    (now : String) (store store' : List RatingRecord) (e : RatingRecord)
    (h : add_rating nameInput ratingInputs now store = (store', some (.added e))) :
    store' = store ++ [e] ∧ e.rating ≤ 100 := by
  by_cases hn : pyStrip nameInput = ""
  · simp [add_rating, hn] at h
  · rw [add_rating] at h
    simp only [if_neg hn] at h
    cases hr : firstValidRating ratingInputs with
    | none =>
      rw [hr] at h
      simp at h
    | some r =>
      rw [hr] at h
      simp only [Prod.mk.injEq, Option.some.injEq, AddOutcome.added.injEq] at h
      obtain ⟨hs, he⟩ := h
      subst hs
      subst he
      exact ⟨rfl, firstValidRating_le hr⟩

/-- Witness for C7: a concrete add run appending `Merlot 8.5` to a
one-record store. -/
theorem add_appends_valid_record_witness :
    [⟨"a", 50, none⟩, ⟨"Merlot", 85, some "t0"⟩] =
      [⟨"a", 50, none⟩] ++ [(⟨"Merlot", 85, some "t0"⟩ : RatingRecord)] ∧
    (⟨"Merlot", 85, some "t0"⟩ : RatingRecord).rating ≤ 100 :=
  add_appends_valid_record "Merlot" ["11", "8.5"] "t0" [⟨"a", 50, none⟩]
    [⟨"a", 50, none⟩, ⟨"Merlot", 85, some "t0"⟩] ⟨"Merlot", 85, some "t0"⟩
    (by decide)

/-- Exactly the stripped choice `"4"` dispatches to quit. -/
theorem menu_dispatch_quit_iff (c : String) :
    menu_dispatch c = .quit ↔ pyStrip c = "4" := by
  unfold menu_dispatch
  simp only []
  split_ifs with h1 h2 h3 h4 <;> simp_all

/-- One step of the menu loop: a quit choice stops it, anything else
continues with the rest of the stream. -/
theorem main_loop_cons (c : String) (rest : List String) :
    main_loop (c :: rest) = if pyStrip c = "4" then true else main_loop rest := by
  rw [main_loop]
  by_cases h : pyStrip c = "4"
  · rw [(menu_dispatch_quit_iff c).mpr h, if_pos h]
  · rw [if_neg h]
    cases hm : menu_dispatch c <;>
      first
        | rfl
        | exact absurd ((menu_dispatch_quit_iff c).mp hm) h

/-- C9: Menu dispatch sends `"1"`, `"2"`, `"3"` to add, view and delete
(each returning to the menu, i.e. the loop continues), any other non-quit
input re-displays the menu with a complaint, and the loop terminates
exactly when the choice stream contains a choice that strips to `"4"`. -/
theorem menu_loop_behaviour :
    menu_dispatch "1" = .add ∧ menu_dispatch "2" = .view ∧
    menu_dispatch "3" = .delete ∧
    (∀ c, menu_dispatch c = .quit ↔ pyStrip c = "4") ∧
    (∀ c, pyStrip c ≠ "1" → pyStrip c ≠ "2" → pyStrip c ≠ "3" →
      pyStrip c ≠ "4" → menu_dispatch c = .complain) ∧
    (∀ choices, main_loop choices = true ↔ ∃ c ∈ choices, pyStrip c = "4") := by
  refine ⟨by decide, by decide, by decide, menu_dispatch_quit_iff,
    fun c h1 h2 h3 h4 => ?_, fun choices => ?_⟩
  · unfold menu_dispatch
    rw [if_neg h1, if_neg h2, if_neg h3, if_neg h4]
  · induction choices with
    | nil => simp [main_loop]
    | cons c rest ih =>
      rw [main_loop_cons]
      by_cases h : pyStrip c = "4" <;> simp [h, ih]

/-- C10: A record without a `"date"` key never breaks view or delete:
its date reads back as the empty string, so it renders with an empty date
under any timestamp formatter; both displays still show one row per stored
record; and, among records of equal rating, an undated record is never
preceded by a dated one in the display order (the empty string sorts before
every non-empty timestamp). -/
theorem missing_date_safe :
    (∀ w v, dateStr ⟨w, v, none⟩ = "") ∧
    (∀ fmt i w v, renderLine fmt i ⟨w, v, none⟩ = (i, w, v, "")) ∧
    (∀ fmt ratings, (view_ratings fmt ratings).length = ratings.length) ∧
    (∀ ratings, (delete_display ratings).length = ratings.length) ∧
    (∀ ratings, (sorted_ratings ratings).Pairwise
      (fun a b => a.rating = b.rating → dateStr b = "" → dateStr a = "")) := by
  refine ⟨fun w v => rfl, fun fmt i w v => rfl, fun fmt ratings => ?_,
    fun ratings => ?_, fun ratings => ?_⟩
  · by_cases h : ratings = []
    · subst h
      simp [view_ratings]
    · simp [view_ratings, h, sorted_ratings, List.length_insertionSort]
  · simp [delete_display, sorted_indices, List.length_insertionSort]
  · have hs := List.sorted_insertionSort recLE ratings
    refine List.Pairwise.imp ?_ hs
    intro a b hab
    simp only [recLE, keyLE, _rating_sort_key] at hab
    intro hrat hb
    rcases hab with h | ⟨-, h2⟩
    · exfalso
      omega
    · rw [hb] at h2
      exact le_antisymm h2 (by rw [String.le_iff_toList_le]; exact List.nil_le)

/-- Witness for C9: a concrete non-menu input re-displays the menu, and
a concrete stream quits exactly because it contains `"4"`. -/
theorem menu_loop_behaviour_witness :
    menu_dispatch "x" = .complain ∧
    (main_loop ["7", "1", "4"] = true ↔ ∃ c ∈ ["7", "1", "4"], pyStrip c = "4") :=
  ⟨menu_loop_behaviour.2.2.2.2.1 "x" (by decide) (by decide) (by decide) (by decide),
    menu_loop_behaviour.2.2.2.2.2 ["7", "1", "4"]⟩

/-- Witness for C10: a concrete store containing an undated record is
fully displayed by the view operation. -/
theorem missing_date_safe_witness :
    (view_ratings (fun _ => none)
      [⟨"a", 70, none⟩, ⟨"b", 70, some "2024"⟩]).length =
      ([⟨"a", 70, none⟩, ⟨"b", 70, some "2024"⟩] : List RatingRecord).length :=
  missing_date_safe.2.2.1 (fun _ => none) [⟨"a", 70, none⟩, ⟨"b", 70, some "2024"⟩]
